import Mathlib

/-!
Verification development for the RTC-basics console firmware (`src/main.c`).

The file shallowly embeds, in Lean, the parts of `main.c` the specification
talks about:

* `validate_date_time`  — the calendar validator (`main.c:703-740`);
* `fetch_time_data`     — the bounded line collector (`main.c:642-681`);
* `set_dst_feature`     — the DST configuration flow (`main.c:353-558`);
* `set_new_time`        — the direct set-time flow (`main.c:573-622`);
* `rtc_init`            — the retried RTC bring-up (`main.c:240-257`).

Machine integers are embedded as `Int`/`Nat`; where a C conversion to an
unsigned type is semantically relevant it is noted at the definition.
External PDL primitives (UART get/put, RTC register writes) are modelled as
environment inputs; the external PDL validity macros and the day-of-week
helper, whose bodies are not part of this repository, are modelled from the
specification and flagged as such in their doc comments.
-/

/-! ## Constants from `main.c` -/

/-- `UART_TIMEOUT_MS` (`main.c:54`): per-character sub-timeout in ms. -/
def UART_TIMEOUT_MS : Nat := 10

/-- `INPUT_TIMEOUT_MS` (`main.c:55`): overall input budget in ms. -/
def INPUT_TIMEOUT_MS : Nat := 120000

/-- `MAX_ATTEMPTS` (`main.c:58`): retry bound for RTC operations. -/
def MAX_ATTEMPTS : Nat := 500

/-- `INIT_DELAY_MS` (`main.c:59`): fixed delay between retry attempts, in ms. -/
def INIT_DELAY_MS : Nat := 5

/-- `STRING_BUFFER_SIZE` (`main.c:61`): line-buffer capacity in bytes. -/
def STRING_BUFFER_SIZE : Nat := 80

/-- `MIN_SPACE_KEY_COUNT` (`main.c:75`): required number of space delimiters. -/
def MIN_SPACE_KEY_COUNT : Nat := 5

/-! ## Calendar validator (`validate_date_time`, `main.c:703-740`) -/

/-- Modelled from the spec: external PDL macro `CY_RTC_IS_SEC_VALID`
(`cy_rtc.h`, not part of this repository).  Spec §4.2: `sec ∈ [0,59]`.
The C macro compares against an unsigned constant, so a negative `int`
wraps to a huge unsigned value and fails the check — extensionally the
same as the two-sided range test on the `int` range. -/
def CY_RTC_IS_SEC_VALID (s : Int) : Bool :=
  decide (0 ≤ s ∧ s ≤ 59)

/-- Modelled from the spec: external PDL macro `CY_RTC_IS_MIN_VALID`.
Spec §4.2: `min ∈ [0,59]`. -/
def CY_RTC_IS_MIN_VALID (m : Int) : Bool :=
  decide (0 ≤ m ∧ m ≤ 59)

/-- Modelled from the spec: external PDL macro `CY_RTC_IS_HOUR_VALID`.
Spec §4.2: `hour ∈ [0,23]`. -/
def CY_RTC_IS_HOUR_VALID (h : Int) : Bool :=
  decide (0 ≤ h ∧ h ≤ 23)

/-- Modelled from the spec: external PDL macro `CY_RTC_IS_MONTH_VALID`.
Spec §4.2: `month ∈ [1,12]`. -/
def CY_RTC_IS_MONTH_VALID (mo : Int) : Bool :=
  decide (1 ≤ mo ∧ mo ≤ 12)

/-- Modelled from the spec: external PDL macro `CY_RTC_IS_YEAR_LONG_VALID`.
Spec §4.2 describes the year range as non-negative (`y ≥ 0`, also the domain
used by spec §8's testable property); the in-source doc comment at
`main.c:697` says "[> 0]".  The spec's wording is followed here. -/
def CY_RTC_IS_YEAR_LONG_VALID (y : Int) : Bool :=
  decide (0 ≤ y)

/-- `IS_LEAP_YEAR` (`main.c:88-89`): divisible by 4 and not by 100, or
divisible by 400.  For the non-negative years that reach this macro the C
unsigned arithmetic agrees with `Int.emod`. -/
def IS_LEAP_YEAR (year : Int) : Bool :=
  (year % 4 == 0 && year % 100 != 0) || year % 400 == 0

/-- `days_in_month_table` (`main.c:709-723`): the PDL `CY_RTC_DAYS_IN_*`
constants are the ordinary month lengths (spec §4.2 gives the table). -/
def days_in_month_table : List Nat :=
  [31, 28, 31, 30, 31, 30, 31, 31, 30, 31, 30, 31]

/-- `validate_date_time` (`main.c:703-740`).  Note the final conjunct of the
source, `rslt &= (mday > 0U) && (mday <= days_in_month)`: the `0U` forces
`mday` to be converted to `unsigned`, so every nonzero `mday` — negative
values included — passes the first comparison; in the second, the `uint8_t`
table value is promoted to `int` and the comparison is signed.  The faithful
embedding of the pair is therefore `mday ≠ 0 ∧ mday ≤ days`. -/
def validate_date_time (sec min hour mday month year : Int) : Bool :=
  let rslt := CY_RTC_IS_SEC_VALID sec && CY_RTC_IS_MIN_VALID min &&
              CY_RTC_IS_HOUR_VALID hour && CY_RTC_IS_MONTH_VALID month &&
              CY_RTC_IS_YEAR_LONG_VALID year
  if rslt then
    let base : Int := days_in_month_table.getD (month - 1).toNat 0
    let days : Int := if IS_LEAP_YEAR year && month == 2 then base + 1 else base
    decide (mday ≠ 0) && decide (mday ≤ days)
  else
    false

/-- Written from the claim's words (C4): `days_in_month` following the fixed
table, with February extended to 29 exactly when the year is divisible by 4
and not by 100, or divisible by 400.  Used only as the specification side of
the refinement comparison with `validate_date_time`. -/
def days_in_month_spec (mo y : Int) : Int :=
  let base : Int := days_in_month_table.getD (mo - 1).toNat 0
  if mo = 2 ∧ ((y % 4 = 0 ∧ y % 100 ≠ 0) ∨ y % 400 = 0) then 29 else base

/-! ## Theorems about the calendar validator (claims C4 and C9) -/

/-- The `IS_LEAP_YEAR` macro decides exactly the Gregorian leap rule. -/
theorem is_leap_year_iff (y : Int) :
    IS_LEAP_YEAR y = true ↔ ((y % 4 = 0 ∧ y % 100 ≠ 0) ∨ y % 400 = 0) := by
  simp [IS_LEAP_YEAR]

/-- The days-in-month value computed inside `validate_date_time` (table lookup
plus February leap bump) agrees with the spec-side `days_in_month_spec`. -/
theorem code_days_eq_spec (mo y : Int) (h1 : 1 ≤ mo) (h12 : mo ≤ 12) :
    (if IS_LEAP_YEAR y && mo == 2 then (days_in_month_table.getD (mo - 1).toNat 0 : Int) + 1
      else (days_in_month_table.getD (mo - 1).toNat 0 : Int)) = days_in_month_spec mo y := by
  unfold days_in_month_spec
  by_cases hmo : mo = 2
  · subst hmo
    have hbase : ((days_in_month_table.getD ((2:Int) - 1).toNat 0 : Int)) = 28 := by decide
    by_cases hl : (y % 4 = 0 ∧ y % 100 ≠ 0) ∨ y % 400 = 0
    · have hL : (IS_LEAP_YEAR y && ((2:Int) == 2)) = true := by
        rw [Bool.and_eq_true]
        exact ⟨(is_leap_year_iff y).mpr hl, by decide⟩
      rw [if_pos hL, if_pos ⟨rfl, hl⟩, hbase]
      norm_num
    · have hL : ¬ ((IS_LEAP_YEAR y && ((2:Int) == 2)) = true) := by
        rw [Bool.and_eq_true]
        intro hcon
        exact hl ((is_leap_year_iff y).mp hcon.1)
      rw [if_neg hL, if_neg]
      intro hcon
      exact hl hcon.2
  · have hL : ¬ ((IS_LEAP_YEAR y && (mo == 2)) = true) := by
      rw [Bool.and_eq_true, beq_iff_eq]
      intro hcon
      exact hmo hcon.2
    rw [if_neg hL, if_neg]
    intro hcon
    exact hmo hcon.1

/-- Claim C4 (amended): for in-range second/minute/hour, month in [1,12] and
year ≥ 0, `validate_date_time` returns true iff the day is nonzero and at
most `days_in_month_spec month year` (table plus Gregorian leap rule).  The
claimed lower bound `1 ≤ d` does not hold: the source's `mday > 0U`
comparison is unsigned, so negative days pass it. -/
theorem validate_date_time_iff (s m h d mo y : Int)
    (hs0 : 0 ≤ s) (hs1 : s ≤ 59) (hm0 : 0 ≤ m) (hm1 : m ≤ 59)
    (hh0 : 0 ≤ h) (hh1 : h ≤ 23) (hmo0 : 1 ≤ mo) (hmo1 : mo ≤ 12) (hy : 0 ≤ y) :
    validate_date_time s m h d mo y = true ↔ (d ≠ 0 ∧ d ≤ days_in_month_spec mo y) := by
  have hr : (CY_RTC_IS_SEC_VALID s && CY_RTC_IS_MIN_VALID m && CY_RTC_IS_HOUR_VALID h &&
      CY_RTC_IS_MONTH_VALID mo && CY_RTC_IS_YEAR_LONG_VALID y) = true := by
    simp only [CY_RTC_IS_SEC_VALID, CY_RTC_IS_MIN_VALID, CY_RTC_IS_HOUR_VALID,
      CY_RTC_IS_MONTH_VALID, CY_RTC_IS_YEAR_LONG_VALID, Bool.and_eq_true, decide_eq_true_eq]
    exact ⟨⟨⟨⟨⟨hs0, hs1⟩, ⟨hm0, hm1⟩⟩, ⟨hh0, hh1⟩⟩, ⟨hmo0, hmo1⟩⟩, hy⟩
  simp only [validate_date_time]
  rw [if_pos hr, code_days_eq_spec mo y hmo0 hmo1]
  simp only [Bool.and_eq_true, decide_eq_true_eq]

/-- Claim C4, counterexample to the claim as stated: at
`(s,m,h,d,mo,y) = (0,0,0,-1,1,2024)` the claim predicts `validate = false`
(since `-1 ∉ [1, 31]`), but `validate_date_time` returns true — in the
source, `mday > 0U` converts `-1` to a huge unsigned value. -/
theorem validate_date_time_neg_day_counterexample :
    validate_date_time 0 0 0 (-1) 1 2024 = true ∧
      ¬ (1 ≤ (-1 : Int) ∧ (-1 : Int) ≤ days_in_month_spec 1 2024) := by
  constructor
  · decide
  · decide

/-- Claim C4, witness: the amended equivalence applied at the leap-year probe
`(0,0,0,29,2,2000)` from spec §8 (2000 is divisible by 400, so Feb 29 is
accepted). -/
theorem validate_date_time_iff_witness : validate_date_time 0 0 0 29 2 2000 = true :=
  (validate_date_time_iff 0 0 0 29 2 2000 (by decide) (by decide) (by decide) (by decide)
    (by decide) (by decide) (by decide) (by decide) (by decide)).mpr (by decide)

/-- Claim C9 (amended): `validate_date_time` is a total Boolean function on
`Int` inputs; every out-of-range second/minute/hour/month/year makes it
return false, a zero day makes it return false, the days-in-month table
lookup index `month - 1` is within `[0, 11]` whenever the month range check
has passed, and a true result implies the month range check passed (the
lookup is reached only behind that check).  The original claim's "every
out-of-domain input returns false" fails for negative days, which are
accepted. -/
theorem validate_total_guard (s m h d mo y : Int) :
    (¬(0 ≤ s ∧ s ≤ 59) → validate_date_time s m h d mo y = false) ∧
    (¬(0 ≤ m ∧ m ≤ 59) → validate_date_time s m h d mo y = false) ∧
    (¬(0 ≤ h ∧ h ≤ 23) → validate_date_time s m h d mo y = false) ∧
    (¬(1 ≤ mo ∧ mo ≤ 12) → validate_date_time s m h d mo y = false) ∧
    (¬(0 ≤ y) → validate_date_time s m h d mo y = false) ∧
    (d = 0 → validate_date_time s m h d mo y = false) ∧
    (CY_RTC_IS_MONTH_VALID mo = true → (mo - 1).toNat < days_in_month_table.length) ∧
    (validate_date_time s m h d mo y = true → CY_RTC_IS_MONTH_VALID mo = true) := by
  refine ⟨?_, ?_, ?_, ?_, ?_, ?_, ?_, ?_⟩
  · intro hcon; simp [validate_date_time, CY_RTC_IS_SEC_VALID, hcon]
  · intro hcon; simp [validate_date_time, CY_RTC_IS_MIN_VALID, hcon]
  · intro hcon; simp [validate_date_time, CY_RTC_IS_HOUR_VALID, hcon]
  · intro hcon; simp [validate_date_time, CY_RTC_IS_MONTH_VALID, hcon]
  · intro hcon; simp [validate_date_time, CY_RTC_IS_YEAR_LONG_VALID, hcon]
  · intro hd; subst hd; simp [validate_date_time]
  · intro hmv
    simp only [CY_RTC_IS_MONTH_VALID, decide_eq_true_eq] at hmv
    simp only [days_in_month_table, List.length]
    omega
  · intro hv
    by_contra hmv
    have hmf : CY_RTC_IS_MONTH_VALID mo = false := by
      cases hb : CY_RTC_IS_MONTH_VALID mo
      · rfl
      · exact absurd hb hmv
    simp [validate_date_time, hmf] at hv

/-- Claim C9, counterexample to the claim as stated: `d = -2` is an
out-of-domain day, yet `validate_date_time` returns true for it instead of
false. -/
theorem validate_out_of_domain_counterexample :
    validate_date_time 0 0 0 (-2) 1 2024 = true ∧ ¬ (1 ≤ (-2 : Int)) := by
  constructor
  · decide
  · decide

/-- Claim C9, witness: the amended theorem applied concretely — an
out-of-range second yields false, and for month 1 the table index is in
bounds. -/
theorem validate_total_guard_witness :
    validate_date_time 60 0 0 1 1 2024 = false ∧
      ((1 : Int) - 1).toNat < days_in_month_table.length :=
  ⟨(validate_total_guard 60 0 0 1 1 2024).1 (by decide),
   (validate_total_guard 0 0 0 1 1 2024).2.2.2.2.2.2.1 (by decide)⟩

/-! ## Line collector (`fetch_time_data`, `main.c:642-681`)

The byte source is abstracted per `user_uart_getc` call: element `i` of
`src` is the outcome of the `i`-th `user_uart_getc(&ch, UART_TIMEOUT_MS)`
call inside the loop (`none` = the 10 ms sub-timeout expired with no byte;
an exhausted list behaves like an always-silent source).  `Cy_SCB_UART_Put`
is fire-and-forget terminal output (spec §6) and cannot produce
`CY_SCB_UART_RX_NO_DATA`, so the status is modelled by the Boolean
`timedOut` (`rslt == CY_SCB_UART_RX_NO_DATA` at exit). -/

/-- Observable outcome of one `fetch_time_data` run: the collected line,
the space count, whether the returned status is `CY_SCB_UART_RX_NO_DATA`,
whether a terminator byte was consumed, the number of `user_uart_getc`
calls made, and the value of `timeout_ms` at loop exit. -/
structure FetchResult where
  line : List Nat
  spaceCount : Nat
  timedOut : Bool
  sawTerm : Bool
  getcCalls : Nat
  finalBudget : Nat
deriving Repr, DecidableEq

/-- Loop body of `fetch_time_data` (`main.c:649-677`).  `fuel` is a
structural-recursion bound, not part of the C code; `fetchAux_fuel_irrel`
shows the result does not depend on it once it is at least
`timeout_ms / 10`, which is what the top-level entry point passes.  The
three exits mirror the source: budget check (`timeout_ms <= UART_TIMEOUT_MS`
before any read), terminator break (before echo and increment), and the
`index < STRING_BUFFER_SIZE` loop condition. -/
def fetchAux (fuel : Nat) (src : List (Option Nat)) (timeout_ms : Nat)
    (index spaces : Nat) (acc : List Nat) (calls : Nat) : FetchResult :=
  if STRING_BUFFER_SIZE ≤ index then
    ⟨acc.reverse, spaces, false, false, calls, timeout_ms⟩
  else if timeout_ms ≤ UART_TIMEOUT_MS then
    ⟨acc.reverse, spaces, true, false, calls, timeout_ms⟩
  else
    match fuel, src with
    | 0, _ => ⟨acc.reverse, spaces, true, false, calls, timeout_ms⟩
    | fuel' + 1, some ch :: rest =>
      if ch = 10 ∨ ch = 13 then
        ⟨acc.reverse, spaces, false, true, calls + 1, timeout_ms⟩
      else
        fetchAux fuel' rest (timeout_ms - UART_TIMEOUT_MS) (index + 1)
          (if ch = 32 then spaces + 1 else spaces) (ch :: acc) (calls + 1)
    | fuel' + 1, none :: rest =>
      fetchAux fuel' rest (timeout_ms - UART_TIMEOUT_MS) index spaces acc (calls + 1)
    | fuel' + 1, [] =>
      fetchAux fuel' [] (timeout_ms - UART_TIMEOUT_MS) index spaces acc (calls + 1)

/-- `fetch_time_data` (`main.c:642-681`): `*space_count = 0`, `index = 0`,
then the collection loop. -/
def fetch_time_data (src : List (Option Nat)) (timeout_ms : Nat) : FetchResult :=
  fetchAux timeout_ms src timeout_ms 0 0 [] 0

/-- Unfolding equation of `fetchAux` at fuel 0. -/
theorem fetchAux_zero (src : List (Option Nat)) (t i s : Nat) (acc : List Nat) (c : Nat) :
    fetchAux 0 src t i s acc c =
      if STRING_BUFFER_SIZE ≤ i then ⟨acc.reverse, s, false, false, c, t⟩
      else if t ≤ UART_TIMEOUT_MS then ⟨acc.reverse, s, true, false, c, t⟩
      else ⟨acc.reverse, s, true, false, c, t⟩ := rfl

/-- Unfolding equation of `fetchAux` when the next poll yields a byte. -/
theorem fetchAux_some (fuel : Nat) (ch : Nat) (rest : List (Option Nat)) (t i s : Nat)
    (acc : List Nat) (c : Nat) :
    fetchAux (fuel + 1) (some ch :: rest) t i s acc c =
      if STRING_BUFFER_SIZE ≤ i then ⟨acc.reverse, s, false, false, c, t⟩
      else if t ≤ UART_TIMEOUT_MS then ⟨acc.reverse, s, true, false, c, t⟩
      else if ch = 10 ∨ ch = 13 then ⟨acc.reverse, s, false, true, c + 1, t⟩
      else fetchAux fuel rest (t - UART_TIMEOUT_MS) (i + 1)
        (if ch = 32 then s + 1 else s) (ch :: acc) (c + 1) := rfl

/-- Unfolding equation of `fetchAux` when the next poll times out. -/
theorem fetchAux_none (fuel : Nat) (rest : List (Option Nat)) (t i s : Nat)
    (acc : List Nat) (c : Nat) :
    fetchAux (fuel + 1) (none :: rest) t i s acc c =
      if STRING_BUFFER_SIZE ≤ i then ⟨acc.reverse, s, false, false, c, t⟩
      else if t ≤ UART_TIMEOUT_MS then ⟨acc.reverse, s, true, false, c, t⟩
      else fetchAux fuel rest (t - UART_TIMEOUT_MS) i s acc (c + 1) := rfl

/-- Unfolding equation of `fetchAux` on an exhausted source. -/
theorem fetchAux_nil (fuel : Nat) (t i s : Nat) (acc : List Nat) (c : Nat) :
    fetchAux (fuel + 1) [] t i s acc c =
      if STRING_BUFFER_SIZE ≤ i then ⟨acc.reverse, s, false, false, c, t⟩
      else if t ≤ UART_TIMEOUT_MS then ⟨acc.reverse, s, true, false, c, t⟩
      else fetchAux fuel [] (t - UART_TIMEOUT_MS) i s acc (c + 1) := rfl

/-- A run over prompt bytes `bs` (no terminators) followed by a terminator:
every byte is appended in order, spaces are counted, the terminator is
consumed but not appended, and the status is success. -/
theorem fetchAux_term (term : Nat) (hterm : term = 10 ∨ term = 13) (rest : List (Option Nat)) :
    ∀ (bs : List Nat) (fuel t i s : Nat) (acc : List Nat) (c : Nat),
      (∀ ch ∈ bs, ¬(ch = 10 ∨ ch = 13)) →
      i + bs.length < 80 →
      10 * bs.length + 10 < t →
      bs.length + 1 ≤ fuel →
      fetchAux fuel (bs.map some ++ some term :: rest) t i s acc c =
        ⟨acc.reverse ++ bs, s + bs.count 32, false, true, c + bs.length + 1, t - 10 * bs.length⟩ := by
  intro bs
  induction bs with
  | nil =>
    intro fuel t i s acc c hnt hlen hbud hfuel
    cases fuel with
    | zero => omega
    | succ fuel' =>
      simp only [List.map_nil, List.nil_append]
      rw [fetchAux_some, if_neg (by simp [STRING_BUFFER_SIZE]; omega),
          if_neg (by simp [UART_TIMEOUT_MS]; omega), if_pos hterm]
      simp
  | cons ch bs' ih =>
    intro fuel t i s acc c hnt hlen hbud hfuel
    cases fuel with
    | zero => simp at hfuel
    | succ fuel' =>
      simp only [List.map_cons, List.cons_append]
      rw [fetchAux_some, if_neg (by simp [STRING_BUFFER_SIZE]; simp at hlen; omega),
          if_neg (by simp [UART_TIMEOUT_MS]; simp at hbud; omega),
          if_neg (hnt ch (List.mem_cons_self ch bs'))]
      rw [ih fuel' (t - UART_TIMEOUT_MS) (i + 1) (if ch = 32 then s + 1 else s) (ch :: acc) (c + 1)
        (fun x hx => hnt x (List.mem_cons_of_mem ch hx))
        (by simp at hlen ⊢; omega)
        (by simp [UART_TIMEOUT_MS] at hbud ⊢; omega)
        (by simp at hfuel; omega)]
      by_cases hch : ch = 32 <;>
        simp [hch, List.count_cons, UART_TIMEOUT_MS, FetchResult.mk.injEq] <;> omega

/-- A run over at least `80 - i` prompt non-terminator bytes fills the
buffer to capacity and exits with a non-timeout status. -/
theorem fetchAux_trunc :
    ∀ (bs : List Nat) (fuel t i s : Nat) (acc : List Nat) (c : Nat),
      (∀ ch ∈ bs, ¬(ch = 10 ∨ ch = 13)) →
      80 ≤ i + bs.length →
      10 * (80 - i) < t →
      80 - i ≤ fuel →
      (fetchAux fuel (bs.map some) t i s acc c).line = acc.reverse ++ bs.take (80 - i) ∧
      (fetchAux fuel (bs.map some) t i s acc c).timedOut = false ∧
      (fetchAux fuel (bs.map some) t i s acc c).sawTerm = false := by
  intro bs
  induction bs with
  | nil =>
    intro fuel t i s acc c hnt hlen hbud hfuel
    have h80 : 80 ≤ i := by simpa using hlen
    have hex : fetchAux fuel ([].map some) t i s acc c = ⟨acc.reverse, s, false, false, c, t⟩ := by
      cases fuel with
      | zero => rw [fetchAux_zero, if_pos (by simpa [STRING_BUFFER_SIZE] using h80)]
      | succ fuel' =>
        simp only [List.map_nil]
        rw [fetchAux_nil, if_pos (by simpa [STRING_BUFFER_SIZE] using h80)]
    rw [hex]
    simp [Nat.sub_eq_zero_of_le h80]
  | cons ch bs' ih =>
    intro fuel t i s acc c hnt hlen hbud hfuel
    by_cases h80 : 80 ≤ i
    · have hex : fetchAux fuel ((ch :: bs').map some) t i s acc c =
          ⟨acc.reverse, s, false, false, c, t⟩ := by
        cases fuel with
        | zero => rw [fetchAux_zero, if_pos (by simpa [STRING_BUFFER_SIZE] using h80)]
        | succ fuel' =>
          simp only [List.map_cons]
          rw [fetchAux_some, if_pos (by simpa [STRING_BUFFER_SIZE] using h80)]
      rw [hex]
      simp [Nat.sub_eq_zero_of_le h80]
    · cases fuel with
      | zero => omega
      | succ fuel' =>
        simp only [List.map_cons]
        rw [fetchAux_some, if_neg (by simpa [STRING_BUFFER_SIZE] using h80),
            if_neg (by simp [UART_TIMEOUT_MS]; omega),
            if_neg (hnt ch (List.mem_cons_self ch bs'))]
        obtain ⟨hl, ht2, hs2⟩ := ih fuel' (t - UART_TIMEOUT_MS) (i + 1)
          (if ch = 32 then s + 1 else s) (ch :: acc) (c + 1)
          (fun x hx => hnt x (List.mem_cons_of_mem ch hx))
          (by simp at hlen ⊢; omega)
          (by simp [UART_TIMEOUT_MS]; omega)
          (by omega)
        refine ⟨?_, ht2, hs2⟩
        rw [hl]
        have hstep : 80 - i = (80 - (i + 1)) + 1 := by omega
        rw [hstep, List.take_succ_cons]
        simp

/-- The returned status is `CY_SCB_UART_RX_NO_DATA` exactly when the loop
exited through the budget check: remaining budget at most the 10 ms
sub-timeout, no terminator seen, buffer not yet full. -/
theorem fetchAux_timeout_iff :
    ∀ (t fuel : Nat) (src : List (Option Nat)) (i s : Nat) (acc : List Nat) (c : Nat),
      t / 10 ≤ fuel → i = acc.length →
      ((fetchAux fuel src t i s acc c).timedOut = true ↔
        ((fetchAux fuel src t i s acc c).finalBudget ≤ UART_TIMEOUT_MS ∧
         (fetchAux fuel src t i s acc c).sawTerm = false ∧
         (fetchAux fuel src t i s acc c).line.length < STRING_BUFFER_SIZE)) := by
  intro t
  induction t using Nat.strong_induction_on with
  | _ t ih =>
    intro fuel src i s acc c hfuel hacc
    by_cases h1 : STRING_BUFFER_SIZE ≤ i
    · have hex : fetchAux fuel src t i s acc c = ⟨acc.reverse, s, false, false, c, t⟩ := by
        cases fuel with
        | zero => rw [fetchAux_zero, if_pos h1]
        | succ fuel' =>
          cases src with
          | nil => rw [fetchAux_nil, if_pos h1]
          | cons o rest =>
            cases o with
            | none => rw [fetchAux_none, if_pos h1]
            | some ch => rw [fetchAux_some, if_pos h1]
      rw [hex]
      simp only [STRING_BUFFER_SIZE, UART_TIMEOUT_MS] at h1 ⊢
      simp [← hacc]
      omega
    · by_cases h2 : t ≤ UART_TIMEOUT_MS
      · have hex : fetchAux fuel src t i s acc c = ⟨acc.reverse, s, true, false, c, t⟩ := by
          cases fuel with
          | zero => rw [fetchAux_zero, if_neg h1, if_pos h2]
          | succ fuel' =>
            cases src with
            | nil => rw [fetchAux_nil, if_neg h1, if_pos h2]
            | cons o rest =>
              cases o with
              | none => rw [fetchAux_none, if_neg h1, if_pos h2]
              | some ch => rw [fetchAux_some, if_neg h1, if_pos h2]
        rw [hex]
        simp only [STRING_BUFFER_SIZE, UART_TIMEOUT_MS] at h1 h2 ⊢
        simp [← hacc, h2]
        omega
      · simp only [UART_TIMEOUT_MS] at h2
        cases fuel with
        | zero =>
          exfalso
          omega
        | succ fuel' =>
          cases src with
          | nil =>
            rw [fetchAux_nil, if_neg h1, if_neg (by simpa [UART_TIMEOUT_MS] using h2)]
            exact ih (t - UART_TIMEOUT_MS) (by simp [UART_TIMEOUT_MS]; omega) fuel' [] i s acc
              (c + 1) (by simp [UART_TIMEOUT_MS]; omega) hacc
          | cons o rest =>
            cases o with
            | none =>
              rw [fetchAux_none, if_neg h1, if_neg (by simpa [UART_TIMEOUT_MS] using h2)]
              exact ih (t - UART_TIMEOUT_MS) (by simp [UART_TIMEOUT_MS]; omega) fuel' rest i s acc
                (c + 1) (by simp [UART_TIMEOUT_MS]; omega) hacc
            | some ch =>
              by_cases hterm : ch = 10 ∨ ch = 13
              · rw [fetchAux_some, if_neg h1, if_neg (by simpa [UART_TIMEOUT_MS] using h2),
                    if_pos hterm]
                simp
              · rw [fetchAux_some, if_neg h1, if_neg (by simpa [UART_TIMEOUT_MS] using h2),
                    if_neg hterm]
                exact ih (t - UART_TIMEOUT_MS) (by simp [UART_TIMEOUT_MS]; omega) fuel' rest (i + 1)
                  (if ch = 32 then s + 1 else s) (ch :: acc) (c + 1)
                  (by simp [UART_TIMEOUT_MS]; omega) (by simp [hacc])

/-- Each `user_uart_getc` call consumes 10 ms of budget, so a run makes at
most `c + t / 10` calls. -/
theorem fetchAux_calls_le :
    ∀ (t fuel : Nat) (src : List (Option Nat)) (i s : Nat) (acc : List Nat) (c : Nat),
      (fetchAux fuel src t i s acc c).getcCalls ≤ c + t / 10 := by
  intro t
  induction t using Nat.strong_induction_on with
  | _ t ih =>
    intro fuel src i s acc c
    by_cases h1 : STRING_BUFFER_SIZE ≤ i
    · have hex : fetchAux fuel src t i s acc c = ⟨acc.reverse, s, false, false, c, t⟩ := by
        cases fuel with
        | zero => rw [fetchAux_zero, if_pos h1]
        | succ fuel' =>
          cases src with
          | nil => rw [fetchAux_nil, if_pos h1]
          | cons o rest =>
            cases o with
            | none => rw [fetchAux_none, if_pos h1]
            | some ch => rw [fetchAux_some, if_pos h1]
      rw [hex]
      simp
    · by_cases h2 : t ≤ UART_TIMEOUT_MS
      · have hex : fetchAux fuel src t i s acc c = ⟨acc.reverse, s, true, false, c, t⟩ := by
          cases fuel with
          | zero => rw [fetchAux_zero, if_neg h1, if_pos h2]
          | succ fuel' =>
            cases src with
            | nil => rw [fetchAux_nil, if_neg h1, if_pos h2]
            | cons o rest =>
              cases o with
              | none => rw [fetchAux_none, if_neg h1, if_pos h2]
              | some ch => rw [fetchAux_some, if_neg h1, if_pos h2]
        rw [hex]
        simp
      · simp only [UART_TIMEOUT_MS] at h2
        have hrec : ∀ src' i' s' acc',
            (fetchAux fuel.pred src' (t - UART_TIMEOUT_MS) i' s' acc' (c + 1)).getcCalls ≤
              c + t / 10 := by
          intro src' i' s' acc'
          calc (fetchAux fuel.pred src' (t - UART_TIMEOUT_MS) i' s' acc' (c + 1)).getcCalls
              ≤ (c + 1) + (t - UART_TIMEOUT_MS) / 10 :=
                ih (t - UART_TIMEOUT_MS) (by simp [UART_TIMEOUT_MS]; omega) _ _ _ _ _ _
            _ ≤ c + t / 10 := by simp only [UART_TIMEOUT_MS]; omega
        cases fuel with
        | zero =>
          rw [fetchAux_zero, if_neg h1, if_neg (by simpa [UART_TIMEOUT_MS] using h2)]
          simp
        | succ fuel' =>
          cases src with
          | nil =>
            rw [fetchAux_nil, if_neg h1, if_neg (by simpa [UART_TIMEOUT_MS] using h2)]
            exact hrec [] i s acc
          | cons o rest =>
            cases o with
            | none =>
              rw [fetchAux_none, if_neg h1, if_neg (by simpa [UART_TIMEOUT_MS] using h2)]
              exact hrec rest i s acc
            | some ch =>
              by_cases hterm : ch = 10 ∨ ch = 13
              · rw [fetchAux_some, if_neg h1, if_neg (by simpa [UART_TIMEOUT_MS] using h2),
                    if_pos hterm]
                simp
                omega
              · rw [fetchAux_some, if_neg h1, if_neg (by simpa [UART_TIMEOUT_MS] using h2),
                    if_neg hterm]
                exact hrec rest (i + 1) (if ch = 32 then s + 1 else s) (ch :: acc)

/-- The collected line never exceeds the 80-byte buffer. -/
theorem fetchAux_line_le :
    ∀ (t fuel : Nat) (src : List (Option Nat)) (i s : Nat) (acc : List Nat) (c : Nat),
      i = acc.length → i ≤ 80 →
      (fetchAux fuel src t i s acc c).line.length ≤ STRING_BUFFER_SIZE := by
  intro t
  induction t using Nat.strong_induction_on with
  | _ t ih =>
    intro fuel src i s acc c hacc hile
    by_cases h1 : STRING_BUFFER_SIZE ≤ i
    · have hex : fetchAux fuel src t i s acc c = ⟨acc.reverse, s, false, false, c, t⟩ := by
        cases fuel with
        | zero => rw [fetchAux_zero, if_pos h1]
        | succ fuel' =>
          cases src with
          | nil => rw [fetchAux_nil, if_pos h1]
          | cons o rest =>
            cases o with
            | none => rw [fetchAux_none, if_pos h1]
            | some ch => rw [fetchAux_some, if_pos h1]
      rw [hex]
      simp only [STRING_BUFFER_SIZE] at hile ⊢
      simp [← hacc, hile]
    · by_cases h2 : t ≤ UART_TIMEOUT_MS
      · have hex : fetchAux fuel src t i s acc c = ⟨acc.reverse, s, true, false, c, t⟩ := by
          cases fuel with
          | zero => rw [fetchAux_zero, if_neg h1, if_pos h2]
          | succ fuel' =>
            cases src with
            | nil => rw [fetchAux_nil, if_neg h1, if_pos h2]
            | cons o rest =>
              cases o with
              | none => rw [fetchAux_none, if_neg h1, if_pos h2]
              | some ch => rw [fetchAux_some, if_neg h1, if_pos h2]
        rw [hex]
        simp only [STRING_BUFFER_SIZE] at hile ⊢
        simp [← hacc, hile]
      · simp only [UART_TIMEOUT_MS] at h2
        simp only [STRING_BUFFER_SIZE] at h1
        cases fuel with
        | zero =>
          rw [fetchAux_zero, if_neg (by simpa [STRING_BUFFER_SIZE] using h1),
              if_neg (by simpa [UART_TIMEOUT_MS] using h2)]
          simp only [STRING_BUFFER_SIZE]
          simp [← hacc, hile]
        | succ fuel' =>
          cases src with
          | nil =>
            rw [fetchAux_nil, if_neg (by simpa [STRING_BUFFER_SIZE] using h1),
                if_neg (by simpa [UART_TIMEOUT_MS] using h2)]
            exact ih (t - UART_TIMEOUT_MS) (by simp [UART_TIMEOUT_MS]; omega) fuel' [] i s acc
              (c + 1) hacc hile
          | cons o rest =>
            cases o with
            | none =>
              rw [fetchAux_none, if_neg (by simpa [STRING_BUFFER_SIZE] using h1),
                  if_neg (by simpa [UART_TIMEOUT_MS] using h2)]
              exact ih (t - UART_TIMEOUT_MS) (by simp [UART_TIMEOUT_MS]; omega) fuel' rest i s acc
                (c + 1) hacc hile
            | some ch =>
              by_cases hterm : ch = 10 ∨ ch = 13
              · rw [fetchAux_some, if_neg (by simpa [STRING_BUFFER_SIZE] using h1),
                    if_neg (by simpa [UART_TIMEOUT_MS] using h2), if_pos hterm]
                simp only [STRING_BUFFER_SIZE]
                simp [← hacc]
                omega
              · rw [fetchAux_some, if_neg (by simpa [STRING_BUFFER_SIZE] using h1),
                    if_neg (by simpa [UART_TIMEOUT_MS] using h2), if_neg hterm]
                exact ih (t - UART_TIMEOUT_MS) (by simp [UART_TIMEOUT_MS]; omega) fuel' rest (i + 1)
                  (if ch = 32 then s + 1 else s) (ch :: acc) (c + 1) (by simp [hacc]) (by omega)

/-- The running space counter always equals the number of spaces stored in
the buffer. -/
theorem fetchAux_space_count :
    ∀ (t fuel : Nat) (src : List (Option Nat)) (i s : Nat) (acc : List Nat) (c : Nat),
      s = acc.count 32 →
      (fetchAux fuel src t i s acc c).spaceCount = (fetchAux fuel src t i s acc c).line.count 32 := by
  intro t
  induction t using Nat.strong_induction_on with
  | _ t ih =>
    intro fuel src i s acc c hs
    by_cases h1 : STRING_BUFFER_SIZE ≤ i
    · have hex : fetchAux fuel src t i s acc c = ⟨acc.reverse, s, false, false, c, t⟩ := by
        cases fuel with
        | zero => rw [fetchAux_zero, if_pos h1]
        | succ fuel' =>
          cases src with
          | nil => rw [fetchAux_nil, if_pos h1]
          | cons o rest =>
            cases o with
            | none => rw [fetchAux_none, if_pos h1]
            | some ch => rw [fetchAux_some, if_pos h1]
      rw [hex]
      simpa using hs
    · by_cases h2 : t ≤ UART_TIMEOUT_MS
      · have hex : fetchAux fuel src t i s acc c = ⟨acc.reverse, s, true, false, c, t⟩ := by
          cases fuel with
          | zero => rw [fetchAux_zero, if_neg h1, if_pos h2]
          | succ fuel' =>
            cases src with
            | nil => rw [fetchAux_nil, if_neg h1, if_pos h2]
            | cons o rest =>
              cases o with
              | none => rw [fetchAux_none, if_neg h1, if_pos h2]
              | some ch => rw [fetchAux_some, if_neg h1, if_pos h2]
        rw [hex]
        simpa using hs
      · cases fuel with
        | zero =>
          rw [fetchAux_zero, if_neg h1, if_neg h2]
          simpa using hs
        | succ fuel' =>
          cases src with
          | nil =>
            rw [fetchAux_nil, if_neg h1, if_neg h2]
            exact ih (t - UART_TIMEOUT_MS) (by simp [UART_TIMEOUT_MS]; omega) fuel' [] i s acc
              (c + 1) hs
          | cons o rest =>
            cases o with
            | none =>
              rw [fetchAux_none, if_neg h1, if_neg h2]
              exact ih (t - UART_TIMEOUT_MS) (by simp [UART_TIMEOUT_MS]; omega) fuel' rest i s acc
                (c + 1) hs
            | some ch =>
              by_cases hterm : ch = 10 ∨ ch = 13
              · rw [fetchAux_some, if_neg h1, if_neg h2, if_pos hterm]
                simpa using hs
              · rw [fetchAux_some, if_neg h1, if_neg h2, if_neg hterm]
                refine ih (t - UART_TIMEOUT_MS) (by simp [UART_TIMEOUT_MS]; omega) fuel' rest (i + 1)
                  (if ch = 32 then s + 1 else s) (ch :: acc) (c + 1) ?_
                by_cases hch : ch = 32
                · simp [hch, List.count_cons, hs]
                · simp [hch, List.count_cons, hs, Ne.symm hch]

/-- The fuel parameter is irrelevant once it covers `t / 10`: the loop is
genuinely terminated by the budget, not by the artificial bound. -/
theorem fetchAux_fuel_irrel :
    ∀ (t f1 f2 : Nat) (src : List (Option Nat)) (i s : Nat) (acc : List Nat) (c : Nat),
      t / 10 ≤ f1 → t / 10 ≤ f2 →
      fetchAux f1 src t i s acc c = fetchAux f2 src t i s acc c := by
  intro t
  induction t using Nat.strong_induction_on with
  | _ t ih =>
    intro f1 f2 src i s acc c hf1 hf2
    by_cases h1 : STRING_BUFFER_SIZE ≤ i
    · have hex : ∀ f : Nat, fetchAux f src t i s acc c = ⟨acc.reverse, s, false, false, c, t⟩ := by
        intro f
        cases f with
        | zero => rw [fetchAux_zero, if_pos h1]
        | succ f' =>
          cases src with
          | nil => rw [fetchAux_nil, if_pos h1]
          | cons o rest =>
            cases o with
            | none => rw [fetchAux_none, if_pos h1]
            | some ch => rw [fetchAux_some, if_pos h1]
      rw [hex f1, hex f2]
    · by_cases h2 : t ≤ UART_TIMEOUT_MS
      · have hex : ∀ f : Nat, fetchAux f src t i s acc c = ⟨acc.reverse, s, true, false, c, t⟩ := by
          intro f
          cases f with
          | zero => rw [fetchAux_zero, if_neg h1, if_pos h2]
          | succ f' =>
            cases src with
            | nil => rw [fetchAux_nil, if_neg h1, if_pos h2]
            | cons o rest =>
              cases o with
              | none => rw [fetchAux_none, if_neg h1, if_pos h2]
              | some ch => rw [fetchAux_some, if_neg h1, if_pos h2]
        rw [hex f1, hex f2]
      · have h2' : ¬ (t ≤ 10) := by simpa [UART_TIMEOUT_MS] using h2
        have hlt : t - UART_TIMEOUT_MS < t := by simp [UART_TIMEOUT_MS]; omega
        have hdiv : (t - UART_TIMEOUT_MS) / 10 ≤ f1 - 1 := by
          simp only [UART_TIMEOUT_MS]; omega
        have hdiv2 : (t - UART_TIMEOUT_MS) / 10 ≤ f2 - 1 := by
          simp only [UART_TIMEOUT_MS]; omega
        have hpos1 : 1 ≤ f1 := by omega
        have hpos2 : 1 ≤ f2 := by omega
        obtain ⟨f1', rfl⟩ : ∃ f1', f1 = f1' + 1 := ⟨f1 - 1, by omega⟩
        obtain ⟨f2', rfl⟩ : ∃ f2', f2 = f2' + 1 := ⟨f2 - 1, by omega⟩
        simp only [Nat.add_sub_cancel] at hdiv hdiv2
        cases src with
        | nil =>
          rw [fetchAux_nil, fetchAux_nil, if_neg h1, if_neg h2, if_neg h1, if_neg h2]
          exact ih (t - UART_TIMEOUT_MS) hlt f1' f2' [] i s acc (c + 1) hdiv hdiv2
        | cons o rest =>
          cases o with
          | none =>
            rw [fetchAux_none, fetchAux_none, if_neg h1, if_neg h2, if_neg h1, if_neg h2]
            exact ih (t - UART_TIMEOUT_MS) hlt f1' f2' rest i s acc (c + 1) hdiv hdiv2
          | some ch =>
            by_cases hterm : ch = 10 ∨ ch = 13
            · rw [fetchAux_some, fetchAux_some, if_neg h1, if_neg h2, if_pos hterm, if_neg h1,
                  if_neg h2, if_pos hterm]
            · rw [fetchAux_some, fetchAux_some, if_neg h1, if_neg h2, if_neg hterm, if_neg h1,
                  if_neg h2, if_neg hterm]
              exact ih (t - UART_TIMEOUT_MS) hlt f1' f2' rest (i + 1)
                (if ch = 32 then s + 1 else s) (ch :: acc) (c + 1) hdiv hdiv2

/-- Variant of `fetchAux` in which the C `uint32_t` budget update
`timeout_ms -= UART_TIMEOUT_MS` is computed modulo `2^32`, as the hardware
would. -/
def fetchAux32 (fuel : Nat) (src : List (Option Nat)) (timeout_ms : Nat)
    (index spaces : Nat) (acc : List Nat) (calls : Nat) : FetchResult :=
  if STRING_BUFFER_SIZE ≤ index then
    ⟨acc.reverse, spaces, false, false, calls, timeout_ms⟩
  else if timeout_ms ≤ UART_TIMEOUT_MS then
    ⟨acc.reverse, spaces, true, false, calls, timeout_ms⟩
  else
    match fuel, src with
    | 0, _ => ⟨acc.reverse, spaces, true, false, calls, timeout_ms⟩
    | fuel' + 1, some ch :: rest =>
      if ch = 10 ∨ ch = 13 then
        ⟨acc.reverse, spaces, false, true, calls + 1, timeout_ms⟩
      else
        fetchAux32 fuel' rest ((timeout_ms - UART_TIMEOUT_MS) % 4294967296) (index + 1)
          (if ch = 32 then spaces + 1 else spaces) (ch :: acc) (calls + 1)
    | fuel' + 1, none :: rest =>
      fetchAux32 fuel' rest ((timeout_ms - UART_TIMEOUT_MS) % 4294967296) index spaces acc
        (calls + 1)
    | fuel' + 1, [] =>
      fetchAux32 fuel' [] ((timeout_ms - UART_TIMEOUT_MS) % 4294967296) index spaces acc
        (calls + 1)

/-- `fetch_time_data` with 32-bit budget arithmetic. -/
def fetch_time_data32 (src : List (Option Nat)) (timeout_ms : Nat) : FetchResult :=
  fetchAux32 timeout_ms src timeout_ms 0 0 [] 0

/-- Unfolding equation of `fetchAux32` at fuel 0. -/
theorem fetchAux32_zero (src : List (Option Nat)) (t i s : Nat) (acc : List Nat) (c : Nat) :
    fetchAux32 0 src t i s acc c =
      if STRING_BUFFER_SIZE ≤ i then ⟨acc.reverse, s, false, false, c, t⟩
      else if t ≤ UART_TIMEOUT_MS then ⟨acc.reverse, s, true, false, c, t⟩
      else ⟨acc.reverse, s, true, false, c, t⟩ := rfl

/-- Unfolding equation of `fetchAux32` when the next poll yields a byte. -/
theorem fetchAux32_some (fuel : Nat) (ch : Nat) (rest : List (Option Nat)) (t i s : Nat)
    (acc : List Nat) (c : Nat) :
    fetchAux32 (fuel + 1) (some ch :: rest) t i s acc c =
      if STRING_BUFFER_SIZE ≤ i then ⟨acc.reverse, s, false, false, c, t⟩
      else if t ≤ UART_TIMEOUT_MS then ⟨acc.reverse, s, true, false, c, t⟩
      else if ch = 10 ∨ ch = 13 then ⟨acc.reverse, s, false, true, c + 1, t⟩
      else fetchAux32 fuel rest ((t - UART_TIMEOUT_MS) % 4294967296) (i + 1)
        (if ch = 32 then s + 1 else s) (ch :: acc) (c + 1) := rfl

/-- Unfolding equation of `fetchAux32` when the next poll times out. -/
theorem fetchAux32_none (fuel : Nat) (rest : List (Option Nat)) (t i s : Nat)
    (acc : List Nat) (c : Nat) :
    fetchAux32 (fuel + 1) (none :: rest) t i s acc c =
      if STRING_BUFFER_SIZE ≤ i then ⟨acc.reverse, s, false, false, c, t⟩
      else if t ≤ UART_TIMEOUT_MS then ⟨acc.reverse, s, true, false, c, t⟩
      else fetchAux32 fuel rest ((t - UART_TIMEOUT_MS) % 4294967296) i s acc (c + 1) := rfl

/-- Unfolding equation of `fetchAux32` on an exhausted source. -/
theorem fetchAux32_nil (fuel : Nat) (t i s : Nat) (acc : List Nat) (c : Nat) :
    fetchAux32 (fuel + 1) [] t i s acc c =
      if STRING_BUFFER_SIZE ≤ i then ⟨acc.reverse, s, false, false, c, t⟩
      else if t ≤ UART_TIMEOUT_MS then ⟨acc.reverse, s, true, false, c, t⟩
      else fetchAux32 fuel [] ((t - UART_TIMEOUT_MS) % 4294967296) i s acc (c + 1) := rfl

/-- For budgets below `2^32` the 32-bit run coincides with the ideal `Nat`
run: the subtraction is performed only behind the `timeout_ms > 10` guard,
so it never wraps. -/
theorem fetchAux32_eq_fetchAux :
    ∀ (fuel : Nat) (src : List (Option Nat)) (t i s : Nat) (acc : List Nat) (c : Nat),
      t < 4294967296 →
      fetchAux32 fuel src t i s acc c = fetchAux fuel src t i s acc c := by
  intro fuel
  induction fuel with
  | zero =>
    intro src t i s acc c ht
    rw [fetchAux32_zero, fetchAux_zero]
  | succ fuel' ih =>
    intro src t i s acc c ht
    have hmod : (t - UART_TIMEOUT_MS) % 4294967296 = t - UART_TIMEOUT_MS :=
      Nat.mod_eq_of_lt (by omega)
    cases src with
    | nil =>
      rw [fetchAux32_nil, fetchAux_nil, hmod, ih [] (t - UART_TIMEOUT_MS) i s acc (c + 1)
        (by omega)]
    | cons o rest =>
      cases o with
      | none =>
        rw [fetchAux32_none, fetchAux_none, hmod, ih rest (t - UART_TIMEOUT_MS) i s acc (c + 1)
          (by omega)]
      | some ch =>
        rw [fetchAux32_some, fetchAux_some, hmod, ih rest (t - UART_TIMEOUT_MS) (i + 1)
          (if ch = 32 then s + 1 else s) (ch :: acc) (c + 1) (by omega)]

/-- Claim C6: on any byte sequence the collector terminates successfully at
the first `\n` (10) or `\r` (13), which is excluded from the line; every
earlier non-terminator byte, spaces included, is appended in arrival order
(capacity permitting), and — for every source whatsoever — the returned
delimiter count equals the number of spaces in the returned line. -/
theorem fetch_time_data_c6 :
    (∀ (bs : List Nat) (term : Nat) (rest : List (Option Nat)) (t : Nat),
      (∀ ch ∈ bs, ¬(ch = 10 ∨ ch = 13)) → (term = 10 ∨ term = 13) →
      bs.length < STRING_BUFFER_SIZE → 10 * bs.length + 10 < t →
      fetch_time_data (bs.map some ++ some term :: rest) t =
        ⟨bs, bs.count 32, false, true, bs.length + 1, t - 10 * bs.length⟩) ∧
    (∀ (src : List (Option Nat)) (t : Nat),
      (fetch_time_data src t).spaceCount = (fetch_time_data src t).line.count 32) := by
  constructor
  · intro bs term rest t hnt hterm hlen hbud
    unfold fetch_time_data
    rw [fetchAux_term term hterm rest bs t t 0 0 [] 0 hnt
      (by simpa [STRING_BUFFER_SIZE] using hlen) hbud (by omega)]
    simp
  · intro src t
    exact fetchAux_space_count t t src 0 0 [] 0 rfl

/-- Claim C6, witness: the spec's concrete probe — input
`"03 15 10 30 00 24"` then `\n`, with a 1000 ms budget — yields exactly
that line, `delimiter_count = 5`, and success status. -/
theorem fetch_time_data_c6_witness :
    fetch_time_data ([48, 51, 32, 49, 53, 32, 49, 48, 32, 51, 48, 32, 48, 48, 32, 50,
        52].map some ++ some 10 :: []) 1000 =
      ⟨[48, 51, 32, 49, 53, 32, 49, 48, 32, 51, 48, 32, 48, 48, 32, 50, 52], 5, false, true,
        18, 830⟩ := by
  rw [fetch_time_data_c6.1 [48, 51, 32, 49, 53, 32, 49, 48, 32, 51, 48, 32, 48, 48, 32, 50, 52]
    10 [] 1000 (by decide) (Or.inl rfl) (by decide) (by decide)]
  decide

/-- Claim C7: the collector reports `Timeout` (status
`CY_SCB_UART_RX_NO_DATA`) exactly when the remaining budget dropped to at
most the 10 ms sub-timeout before any terminator and before the 80-byte
buffer filled; and a source of more than 80 non-terminator bytes yields the
line truncated to 80 bytes with a non-timeout status. -/
theorem fetch_time_data_c7 :
    (∀ (src : List (Option Nat)) (t : Nat),
      ((fetch_time_data src t).timedOut = true ↔
        ((fetch_time_data src t).finalBudget ≤ UART_TIMEOUT_MS ∧
         (fetch_time_data src t).sawTerm = false ∧
         (fetch_time_data src t).line.length < STRING_BUFFER_SIZE))) ∧
    (∀ (bs : List Nat) (t : Nat),
      (∀ ch ∈ bs, ¬(ch = 10 ∨ ch = 13)) →
      STRING_BUFFER_SIZE ≤ bs.length → 10 * STRING_BUFFER_SIZE < t →
      (fetch_time_data (bs.map some) t).line = bs.take STRING_BUFFER_SIZE ∧
      (fetch_time_data (bs.map some) t).timedOut = false) := by
  constructor
  · intro src t
    exact fetchAux_timeout_iff t t src 0 0 [] 0 (Nat.div_le_self t 10) rfl
  · intro bs t hnt hlen hbud
    simp only [STRING_BUFFER_SIZE] at hlen hbud ⊢
    obtain ⟨hl, ht, _⟩ := fetchAux_trunc bs t t 0 0 [] 0 hnt (by omega) (by omega) (by omega)
    exact ⟨by simpa using hl, ht⟩

/-- Claim C7, witness: the timeout characterization at a silent source with
a 35 ms budget, and truncation of an 81-byte terminator-free input. -/
theorem fetch_time_data_c7_witness :
    ((fetch_time_data [] 35).timedOut = true ↔
      ((fetch_time_data [] 35).finalBudget ≤ UART_TIMEOUT_MS ∧
       (fetch_time_data [] 35).sawTerm = false ∧
       (fetch_time_data [] 35).line.length < STRING_BUFFER_SIZE)) ∧
    (fetch_time_data ((List.replicate 81 48).map some) 1000).line =
      (List.replicate 81 48).take STRING_BUFFER_SIZE ∧
    (fetch_time_data ((List.replicate 81 48).map some) 1000).timedOut = false :=
  ⟨fetch_time_data_c7.1 [] 35,
   fetch_time_data_c7.2 (List.replicate 81 48) 1000 (by decide) (by decide) (by decide)⟩

/-- Claim C10: the collection loop terminates for every source behavior and
budget — the 32-bit budget arithmetic never wraps (it equals the ideal
`Nat` arithmetic for budgets below `2^32`, the subtraction being guarded by
`timeout_ms > UART_TIMEOUT_MS`), the loop makes at most
`budget / sub-timeout` byte reads, the line is additionally bounded by the
80-byte buffer, and the result is independent of the structural fuel. -/
theorem fetch_time_data_c10 :
    ∀ (src : List (Option Nat)) (t : Nat),
      (t < 4294967296 → fetch_time_data32 src t = fetch_time_data src t) ∧
      (fetch_time_data src t).getcCalls ≤ t / UART_TIMEOUT_MS ∧
      (fetch_time_data src t).line.length ≤ STRING_BUFFER_SIZE ∧
      (∀ extra : Nat, fetchAux (t + extra) src t 0 0 [] 0 = fetch_time_data src t) := by
  intro src t
  refine ⟨?_, ?_, ?_, ?_⟩
  · intro ht
    exact fetchAux32_eq_fetchAux t src t 0 0 [] 0 ht
  · simpa [UART_TIMEOUT_MS] using fetchAux_calls_le t t src 0 0 [] 0
  · exact fetchAux_line_le t t src 0 0 [] 0 rfl (by omega)
  · intro extra
    exact fetchAux_fuel_irrel t (t + extra) t src 0 0 [] 0 (by omega)
      (Nat.div_le_self t 10)

/-- Claim C10, witness: the bounds applied at a concrete source and
budget. -/
theorem fetch_time_data_c10_witness :
    fetch_time_data32 [some 65, none] 100 = fetch_time_data [some 65, none] 100 ∧
    (fetch_time_data [some 65, none] 100).getcCalls ≤ 100 / UART_TIMEOUT_MS ∧
    fetchAux (100 + 7) [some 65, none] 100 0 0 [] 0 = fetch_time_data [some 65, none] 100 :=
  ⟨(fetch_time_data_c10 [some 65, none] 100).1 (by decide),
   (fetch_time_data_c10 [some 65, none] 100).2.1,
   (fetch_time_data_c10 [some 65, none] 100).2.2.2 7⟩

/-! ## DST configuration and set-time flows (`set_dst_feature` `main.c:353-558`,
`set_new_time` `main.c:573-622`, `rtc_init` `main.c:240-257`)

The two flows are embedded at the granularity the claims speak about: the
line-fetch plus `sscanf` step of each input line is abstracted into a
`LineInput` (fetch status, space count, and the six parsed integers), the
UART command reads into `Option` bytes, and each RTC hardware call into an
environment-provided success bit.  `dst_data_flag` is the explicit
`flag0`/`flag` state threaded through `set_dst_feature`. -/

/-- The six integers produced by `sscanf(buffer, "%d %d %d %d %d %d", &month,
&mday, &hour, &min, &sec, &year)`. -/
structure TimeFields where
  sec : Int
  min : Int
  hour : Int
  mday : Int
  month : Int
  year : Int
deriving Repr, DecidableEq

/-- Outcome of one `fetch_time_data` + `sscanf` round as the flows observe
it: whether the fetch returned `CY_SCB_UART_RX_NO_DATA`, the space count,
and the parsed fields. -/
structure LineInput where
  timedOut : Bool
  spaceCount : Nat
  fields : TimeFields
deriving Repr, DecidableEq

/-- `validate_date_time` applied to a parsed field set, in the argument
order used at `main.c:421` and `main.c:474`. -/
def validate_fields (f : TimeFields) : Bool :=
  validate_date_time f.sec f.min f.hour f.mday f.month f.year

/-- Modelled from the spec: the external PDL helper
`Cy_RTC_ConvertDayOfWeek(mday, month, year)` is "a day-of-week computation
taking (day, month, year)" (spec §4.3); its body is not part of this
repository.  A Zeller-style formula stands in for it; no claim in this file
depends on its values, only on the two places the flow calls it. -/
def Cy_RTC_ConvertDayOfWeek (day month year : Int) : Int :=
  (day + 13 * (month + 1) / 5 + year + year / 4 - year / 100 + year / 400) % 7 + 1

/-- One half of `cy_stc_rtc_dst_t`: the `startDst`/`stopDst` component
(`format`, `hour`, `month`, `dayOfWeek`, `dayOfMonth`, `weekOfMonth`).
`fixedFmt = true` stands for `CY_RTC_DST_FIXED`. -/
structure DstPoint where
  fixedFmt : Bool
  hour : Int
  month : Int
  dayOfWeek : Int
  dayOfMonth : Int
  weekOfMonth : Int
deriving Repr, DecidableEq

/-- The transition-point construction at `main.c:424-436` (start) and
`main.c:478-489` (end): each field is the source's conditional expression on
`fmt == FIXED_DST_FORMAT` (`'1'` = 49). -/
def buildDstPoint (fmt : Nat) (f : TimeFields) : DstPoint :=
  { fixedFmt := fmt == 49
    hour := f.hour
    month := f.month
    dayOfWeek := if fmt == 49 then 1 else Cy_RTC_ConvertDayOfWeek f.mday f.month f.year
    dayOfMonth := if fmt == 49 then f.mday else 1
    weekOfMonth := if fmt == 49 then 1 else Cy_RTC_ConvertDayOfWeek f.mday f.month f.year }

/-- The acceptance condition a collected DST line must pass before a
transition point is built (`main.c:407-422`): fetch did not time out, space
count equals `MIN_SPACE_KEY_COUNT`, `validate_date_time` succeeds, and the
format byte is `'1'` or `'2'`. -/
def dstLineOk (fmt : Nat) (l : LineInput) : Bool :=
  !l.timedOut && (l.spaceCount == MIN_SPACE_KEY_COUNT) && validate_fields l.fields &&
    (fmt == 49 || fmt == 50)

/-- Environment of one `set_dst_feature` invocation: the DST command byte,
the format byte (each `none` when `user_uart_getc` timed out), the two
collected lines, and the result of `Cy_RTC_EnableDstTime`. -/
structure DstEnv where
  cmdByte : Option Nat
  fmtByte : Option Nat
  startLine : LineInput
  endLine : LineInput
  hwOk : Bool
deriving Repr, DecidableEq

/-- Observable outcome of one `set_dst_feature` invocation: the final
`dst_data_flag`, the list of `Cy_RTC_EnableDstTime` calls with the
(possibly unassigned, hence `Option`) `startDst`/`stopDst` arguments, the
successive values assigned to `dst_data_flag`, whether `handle_error` was
reached, and which failure messages were printed. -/
structure DstOutcome where
  flag : Nat
  hwCalls : List (Option DstPoint × Option DstPoint)
  flagsTrace : List Nat
  fatal : Bool
  invalidReported : Bool
  timeoutReported : Bool
deriving Repr, DecidableEq

/-- The canonical zeroed transition point of the Disable path
(`main.c:530-535`). -/
def dstDisablePoint : DstPoint :=
  { fixedFmt := true, hour := 0, month := 1, dayOfWeek := 1, dayOfMonth := 1, weekOfMonth := 1 }

/-- `set_dst_feature` (`main.c:353-558`).  Faithful points to note:
the end-time step is guarded by `DST_VALID_START_TIME_FLAG == dst_data_flag`
(`main.c:453`) on the persistent global, so a stale flag value 1 from an
earlier invocation enables it even when this invocation's start step failed;
the local `dst_time` starts unassigned, modelled by the `Option DstPoint`
locals (`none` = never assigned in this invocation); the hardware write is
guarded only by `DST_VALID_END_TIME_FLAG == dst_data_flag` (`main.c:508`);
on write failure `handle_error` is fatal.  Status display (`main.c:368-388`)
has no effect on the state and is omitted. -/
def set_dst_feature (env : DstEnv) (flag0 : Nat) : DstOutcome :=
  match env.cmdByte with
  | none => ⟨flag0, [], [], false, false, true⟩
  | some dst_cmd =>
    if dst_cmd = 49 then
      match env.fmtByte with
      | none => ⟨flag0, [], [], false, false, true⟩
      | some fmt =>
        let st := env.startLine
        let sOk := dstLineOk fmt st
        let flag1 := if sOk then 1 else flag0
        let startDst : Option DstPoint :=
          if sOk then some (buildDstPoint fmt st.fields) else none
        let sInvalid := !st.timedOut && !sOk
        let sTimeout := st.timedOut
        let en := env.endLine
        let endActive := flag1 == 1
        let eOk := endActive && dstLineOk fmt en
        let flag2 := if eOk then 2 else flag1
        let endDst : Option DstPoint :=
          if eOk then some (buildDstPoint fmt en.fields) else none
        let eInvalid := endActive && !en.timedOut && !(dstLineOk fmt en)
        let eTimeout := endActive && en.timedOut
        let trace := (if sOk then [1] else []) ++ (if eOk then [2] else [])
        if flag2 == 2 then
          if env.hwOk then
            ⟨3, [(startDst, endDst)], trace ++ [3], false, sInvalid || eInvalid,
              sTimeout || eTimeout⟩
          else
            ⟨2, [(startDst, endDst)], trace, true, sInvalid || eInvalid, sTimeout || eTimeout⟩
        else
          ⟨flag2, [], trace, false, sInvalid || eInvalid, sTimeout || eTimeout⟩
    else if dst_cmd = 50 then
      if env.hwOk then
        ⟨0, [(some dstDisablePoint, some dstDisablePoint)], [0], false, false, false⟩
      else
        ⟨flag0, [(some dstDisablePoint, some dstDisablePoint)], [], true, false, false⟩
    else
      ⟨flag0, [], [], false, false, false⟩


/-- Result of a bounded retry loop: number of hardware calls made, the last
call's status, and the accumulated `Cy_SysLib_Delay` time. -/
structure RetryResult where
  calls : Nat
  ok : Bool
  delayMs : Nat
deriving Repr, DecidableEq

/-- The `do { rslt = call; attempts--; Cy_SysLib_Delay(INIT_DELAY_MS); }
while (rslt != CY_RTC_SUCCESS && attempts != 0)` loop shared by `rtc_init`
(`main.c:247-253`) and `set_new_time` (`main.c:599-606`); `hw i` is the
result of the `i`-th hardware call.  Both entry points start it at
`attempts = MAX_ATTEMPTS`, so the `attempts = 0` equation is never
exercised from them. -/
def retry_loop (hw : Nat → Bool) (made delayAcc : Nat) : Nat → RetryResult
  | 0 => ⟨made + 1, hw made, delayAcc + INIT_DELAY_MS⟩
  | attempts + 1 =>
    let r := hw made
    if r = false ∧ attempts ≠ 0 then
      retry_loop hw (made + 1) (delayAcc + INIT_DELAY_MS) attempts
    else
      ⟨made + 1, r, delayAcc + INIT_DELAY_MS⟩

/-- `rtc_init` (`main.c:240-257`): retry `Cy_RTC_Init` up to `MAX_ATTEMPTS`
times. -/
def rtc_init (hw : Nat → Bool) : RetryResult :=
  retry_loop hw 0 0 MAX_ATTEMPTS

/-- Observable outcome of one `set_new_time` invocation: number of
`Cy_RTC_SetDateAndTimeDirect` attempts, the fields passed to them, whether
`handle_error` was reached, and which messages were printed. -/
structure NewTimeOutcome where
  hwAttempts : Nat
  hwArgs : Option TimeFields
  fatal : Bool
  invalidReported : Bool
  timeoutReported : Bool
  updatedReported : Bool

/-- `set_new_time` (`main.c:573-622`).  Note what is absent: after the
space-count check the parsed fields go straight into the retried
`Cy_RTC_SetDateAndTimeDirect` call — there is no `validate_date_time` call
in this flow.  On exhausted retries the code prints the invalid-values
message and calls `handle_error`. -/
def set_new_time (line : LineInput) (hw : Nat → Bool) : NewTimeOutcome :=
  if line.timedOut then
    ⟨0, none, false, false, true, false⟩
  else if line.spaceCount ≠ MIN_SPACE_KEY_COUNT then
    ⟨0, none, false, true, false, false⟩
  else
    let r := retry_loop hw 0 0 MAX_ATTEMPTS
    if r.ok then
      ⟨r.calls, some line.fields, false, false, false, true⟩
    else
      ⟨r.calls, some line.fields, true, true, false, true⟩

/-- The retry loop always makes at least one hardware call. -/
theorem retry_loop_pos (hw : Nat → Bool) :
    ∀ (attempts made d : Nat), made < (retry_loop hw made d attempts).calls := by
  intro attempts
  induction attempts with
  | zero => intro made d; simp [retry_loop]
  | succ a ih =>
    intro made d
    rw [retry_loop]
    by_cases hc : hw made = false ∧ a ≠ 0
    · rw [if_pos hc]
      exact Nat.lt_trans (Nat.lt_succ_self made) (ih (made + 1) (d + INIT_DELAY_MS))
    · rw [if_neg hc]
      exact Nat.lt_succ_self made

/-- The retry loop makes at most `attempts` hardware calls. -/
theorem retry_loop_le (hw : Nat → Bool) :
    ∀ (attempts made d : Nat), 1 ≤ attempts →
      (retry_loop hw made d attempts).calls ≤ made + attempts := by
  intro attempts
  induction attempts with
  | zero => intro made d h; omega
  | succ a ih =>
    intro made d _
    rw [retry_loop]
    by_cases hc : hw made = false ∧ a ≠ 0
    · rw [if_pos hc]
      have := ih (made + 1) (d + INIT_DELAY_MS) (by omega)
      omega
    · rw [if_neg hc]
      simp

/-- When every attempt fails, the loop makes exactly `attempts` calls, ends
unsuccessfully, and has delayed `INIT_DELAY_MS` after each call. -/
theorem retry_loop_all_fail (hw : Nat → Bool) :
    ∀ (attempts made d : Nat), 1 ≤ attempts →
      (∀ j, j < attempts → hw (made + j) = false) →
      retry_loop hw made d attempts = ⟨made + attempts, false, d + INIT_DELAY_MS * attempts⟩ := by
  intro attempts
  induction attempts with
  | zero => intro made d h; omega
  | succ a ih =>
    intro made d _ hfail
    have h0 : hw made = false := by simpa using hfail 0 (by omega)
    rw [retry_loop]
    by_cases ha : a = 0
    · subst ha
      rw [if_neg (by simp)]
      simp [h0]
    · rw [if_pos ⟨h0, ha⟩]
      rw [ih (made + 1) (d + INIT_DELAY_MS) (by omega)
        (fun j hj => by
          rw [show made + 1 + j = made + (j + 1) by omega]
          exact hfail (j + 1) (by omega))]
      have hc : made + 1 + a = made + (a + 1) := by omega
      have hd : d + INIT_DELAY_MS + INIT_DELAY_MS * a = d + INIT_DELAY_MS * (a + 1) := by ring
      rw [hc, hd]

/-- The loop stops early at the first successful call: `k` failures followed
by a success make exactly `k + 1` calls. -/
theorem retry_loop_first_success (hw : Nat → Bool) :
    ∀ (k attempts made d : Nat), k < attempts →
      (∀ j, j < k → hw (made + j) = false) → hw (made + k) = true →
      retry_loop hw made d attempts = ⟨made + k + 1, true, d + INIT_DELAY_MS * (k + 1)⟩ := by
  intro k
  induction k with
  | zero =>
    intro attempts made d hlt _ hsucc
    simp at hsucc
    match attempts, hlt with
    | a + 1, _ =>
      rw [retry_loop]
      rw [if_neg (by simp [hsucc])]
      simp [hsucc]
  | succ k ih =>
    intro attempts made d hlt hfail hsucc
    have h0 : hw made = false := by simpa using hfail 0 (by omega)
    match attempts, hlt with
    | a + 1, hlt =>
      rw [retry_loop]
      rw [if_pos ⟨h0, by omega⟩]
      rw [ih a (made + 1) (d + INIT_DELAY_MS) (by omega)
        (fun j hj => by
          rw [show made + 1 + j = made + (j + 1) by omega]
          exact hfail (j + 1) (by omega))
        (by rw [show made + 1 + k = made + (k + 1) by omega]; exact hsucc)]
      have hc : made + 1 + k + 1 = made + (k + 1) + 1 := by omega
      have hd : d + INIT_DELAY_MS + INIT_DELAY_MS * (k + 1) = d + INIT_DELAY_MS * (k + 1 + 1) := by
        ring
      rw [hc, hd]

/-- Claim C5: with the Fixed selector (`'1'` = 49) the built transition
point has `day_of_week = 1`, `week_of_month = 1` and `day_of_month` the
entered day; with the Relative selector (`'2'` = 50) it has
`day_of_month = 1` and `day_of_week` and `week_of_month` both equal to the
same `Cy_RTC_ConvertDayOfWeek (day, month, year)` value — the documented
week-of-month quirk.  Proven for every field set, so in particular for
validated ones. -/
theorem buildDstPoint_c5 (f : TimeFields) :
    buildDstPoint 49 f =
      { fixedFmt := true, hour := f.hour, month := f.month, dayOfWeek := 1,
        dayOfMonth := f.mday, weekOfMonth := 1 } ∧
    (buildDstPoint 50 f).dayOfMonth = 1 ∧
    (buildDstPoint 50 f).dayOfWeek = Cy_RTC_ConvertDayOfWeek f.mday f.month f.year ∧
    (buildDstPoint 50 f).weekOfMonth = (buildDstPoint 50 f).dayOfWeek :=
  ⟨rfl, rfl, rfl, rfl⟩

/-- A line with the required five spaces whose fields are far out of range:
second 99, minute 99, hour 99, day 99, month 99, year 99. -/
def invalidFieldsLine : LineInput := ⟨false, 5, ⟨99, 99, 99, 99, 99, 99⟩⟩

set_option maxRecDepth 4000 in
/-- Claim C1, counterexample to the claim as stated: a line with
`delimiter_count = 5` whose fields fail `CalendarValidator` still drives
`set_new_time` into the hardware set call (here all 500 attempts run), so
the call is not gated by validation — `set_new_time` never calls
`validate_date_time`. -/
theorem set_new_time_c1_counterexample :
    0 < (set_new_time invalidFieldsLine (fun _ => false)).hwAttempts ∧
      validate_fields invalidFieldsLine.fields = false := by
  constructor
  · decide
  · decide

/-- Claim C1 (amended): in `set_new_time` a fetch timeout is reported as
Timeout with no hardware attempt, a wrong delimiter count is reported as
InvalidInput with no hardware attempt, and every line with
`delimiter_count = 5` — with no `CalendarValidator` check — sends its parsed
fields to the hardware set call at least once. -/
theorem set_new_time_c1 (line : LineInput) (hw : Nat → Bool) :
    (line.timedOut = true →
      (set_new_time line hw).hwAttempts = 0 ∧ (set_new_time line hw).timeoutReported = true) ∧
    (line.timedOut = false → line.spaceCount ≠ MIN_SPACE_KEY_COUNT →
      (set_new_time line hw).hwAttempts = 0 ∧ (set_new_time line hw).invalidReported = true) ∧
    (line.timedOut = false → line.spaceCount = MIN_SPACE_KEY_COUNT →
      0 < (set_new_time line hw).hwAttempts ∧
      (set_new_time line hw).hwArgs = some line.fields) := by
  refine ⟨?_, ?_, ?_⟩
  · intro ht
    simp [set_new_time, ht]
  · intro ht hs
    simp [set_new_time, ht, hs]
  · intro ht hs
    have hpos := retry_loop_pos hw MAX_ATTEMPTS 0 0
    by_cases hr : (retry_loop hw 0 0 MAX_ATTEMPTS).ok
    · simp [set_new_time, ht, hs, hr]
      omega
    · simp [set_new_time, ht, hs, hr]
      omega

/-- `set_dst_feature` issues at most one `Cy_RTC_EnableDstTime` call per
invocation, on every path. -/
theorem set_dst_single (env : DstEnv) (flag0 : Nat) :
    (set_dst_feature env flag0).hwCalls.length ≤ 1 := by
  obtain ⟨cmd, fmtb, st, en, hwOk⟩ := env
  cases cmd with
  | none => simp [set_dst_feature]
  | some c =>
    by_cases h1 : c = 49
    · cases fmtb with
      | none => simp [set_dst_feature, h1]
      | some fmt =>
        simp only [set_dst_feature, h1]
        split_ifs <;> simp_all
    · by_cases h2 : c = 50
      · simp only [set_dst_feature, h1, h2]
        split_ifs <;> simp_all
      · simp [set_dst_feature, h1, h2]

/-- When the single `Cy_RTC_EnableDstTime` call fails, `set_dst_feature`
reaches `handle_error` (fatal) and no further call is made. -/
theorem set_dst_fail_fatal (env : DstEnv) (flag0 : Nat) (hfail : env.hwOk = false)
    (hw : (set_dst_feature env flag0).hwCalls ≠ []) :
    (set_dst_feature env flag0).fatal = true ∧ (set_dst_feature env flag0).hwCalls.length = 1 := by
  obtain ⟨cmd, fmtb, st, en, hwOk⟩ := env
  simp at hfail
  subst hfail
  cases cmd with
  | none => simp [set_dst_feature] at hw
  | some c =>
    by_cases h1 : c = 49
    · cases fmtb with
      | none => simp [set_dst_feature, h1] at hw
      | some fmt =>
        simp only [set_dst_feature, h1] at hw ⊢
        split_ifs at hw ⊢ <;> simp_all
    · by_cases h2 : c = 50
      · simp only [set_dst_feature, h1, h2] at hw ⊢
        split_ifs at hw ⊢ <;> simp_all
      · simp [set_dst_feature, h1, h2] at hw

/-- Claim C2 (amended): in every DST-flow invocation that begins in the
Disabled (0) or Enabled (3) persisted state, an issued Enable-path hardware
write implies both lines were accepted in this same invocation — no fetch
timeout, five delimiters, `CalendarValidator` success, recognized format —
and the written pair is exactly the two points built from those fields,
with the flag trace passing through ValidStart (1) then ValidEnd (2).  The
restriction to a Disabled/Enabled entry state is forced by
`set_dst_c2_counterexample`. -/
theorem set_dst_c2 (env : DstEnv) (flag0 : Nat) (fmt : Nat) (h0 : flag0 = 0 ∨ flag0 = 3)
    (hcmd : env.cmdByte = some 49) (hfmt : env.fmtByte = some fmt)
    (hw : (set_dst_feature env flag0).hwCalls ≠ []) :
    (fmt = 49 ∨ fmt = 50) ∧
    env.startLine.timedOut = false ∧ env.startLine.spaceCount = MIN_SPACE_KEY_COUNT ∧
    validate_fields env.startLine.fields = true ∧
    env.endLine.timedOut = false ∧ env.endLine.spaceCount = MIN_SPACE_KEY_COUNT ∧
    validate_fields env.endLine.fields = true ∧
    (set_dst_feature env flag0).hwCalls =
      [(some (buildDstPoint fmt env.startLine.fields),
        some (buildDstPoint fmt env.endLine.fields))] ∧
    (set_dst_feature env flag0).flagsTrace.take 2 = [1, 2] := by
  by_cases hs : dstLineOk fmt env.startLine = true
  · by_cases he : dstLineOk fmt env.endLine = true
    · have hparts := hs
      simp only [dstLineOk, Bool.and_eq_true, Bool.not_eq_true', beq_iff_eq,
        Bool.or_eq_true] at hparts
      obtain ⟨⟨⟨hp1, hp2⟩, hp3⟩, hp4⟩ := hparts
      have heparts := he
      simp only [dstLineOk, Bool.and_eq_true, Bool.not_eq_true', beq_iff_eq,
        Bool.or_eq_true] at heparts
      obtain ⟨⟨⟨he1, he2⟩, he3⟩, he4⟩ := heparts
      refine ⟨by simpa using hp4, hp1, by simpa [MIN_SPACE_KEY_COUNT] using hp2, hp3,
        he1, by simpa [MIN_SPACE_KEY_COUNT] using he2, he3, ?_, ?_⟩
      · by_cases hok : env.hwOk = true <;>
          simp [set_dst_feature, hcmd, hfmt, hs, he, hok]
      · by_cases hok : env.hwOk = true <;>
          simp [set_dst_feature, hcmd, hfmt, hs, he, hok]
    · exfalso
      apply hw
      have he' : dstLineOk fmt env.endLine = false := by simpa using he
      rcases h0 with rfl | rfl <;>
        simp [set_dst_feature, hcmd, hfmt, hs, he']
  · exfalso
    apply hw
    have hs' : dstLineOk fmt env.startLine = false := by simpa using hs
    rcases h0 with rfl | rfl <;>
      simp [set_dst_feature, hcmd, hfmt, hs']

/-- Claim C3 (amended): starting from Disabled (0) or Enabled (3), a
non-fatal DST-flow invocation exits with flag 0, 1 or 3; a command-read or
format-read timeout, or a failed start line, leaves the flag at its entry
value with no hardware call; a failed end line after a validated start
leaves the flag at ValidStart (1) — not the entry value — still with no
hardware call.  The ValidStart leak is forced by
`set_dst_c3_counterexample`. -/
theorem set_dst_c3 (env : DstEnv) (flag0 : Nat) (h0 : flag0 = 0 ∨ flag0 = 3) :
    ((set_dst_feature env flag0).fatal = false →
      ((set_dst_feature env flag0).flag = 0 ∨ (set_dst_feature env flag0).flag = 1 ∨
       (set_dst_feature env flag0).flag = 3)) ∧
    (env.cmdByte = none → set_dst_feature env flag0 = ⟨flag0, [], [], false, false, true⟩) ∧
    (env.cmdByte = some 49 → env.fmtByte = none →
      set_dst_feature env flag0 = ⟨flag0, [], [], false, false, true⟩) ∧
    (∀ fmt, env.cmdByte = some 49 → env.fmtByte = some fmt →
      dstLineOk fmt env.startLine = false →
      (set_dst_feature env flag0).flag = flag0 ∧ (set_dst_feature env flag0).hwCalls = []) ∧
    (∀ fmt, env.cmdByte = some 49 → env.fmtByte = some fmt →
      dstLineOk fmt env.startLine = true → dstLineOk fmt env.endLine = false →
      (set_dst_feature env flag0).flag = 1 ∧ (set_dst_feature env flag0).hwCalls = []) := by
  refine ⟨?_, ?_, ?_, ?_, ?_⟩
  · intro hnf
    obtain ⟨cmd, fmtb, st, en, hwOk⟩ := env
    cases cmd with
    | none => simp [set_dst_feature]; omega
    | some c =>
      by_cases h1 : c = 49
      · cases fmtb with
        | none => simp [set_dst_feature, h1]; omega
        | some fmt =>
          rcases h0 with rfl | rfl <;>
            · simp only [set_dst_feature, h1] at hnf ⊢
              split_ifs at hnf ⊢ <;> simp_all
      · by_cases h2 : c = 50
        · rcases h0 with rfl | rfl <;>
            · simp only [set_dst_feature, h1, h2] at hnf ⊢
              split_ifs at hnf ⊢ <;> simp_all
        · rcases h0 with rfl | rfl <;> simp [set_dst_feature, h1, h2]
  · intro hnone
    simp [set_dst_feature, hnone]
  · intro hcmd hfmt
    simp [set_dst_feature, hcmd, hfmt]
  · intro fmt hcmd hfmt hs
    rcases h0 with rfl | rfl <;> simp [set_dst_feature, hcmd, hfmt, hs]
  · intro fmt hcmd hfmt hs he
    rcases h0 with rfl | rfl <;> simp [set_dst_feature, hcmd, hfmt, hs, he]

/-- Enable-path environment: valid start line (`03 15 10 00 00 24`), end
line with only four spaces. -/
def dstEnvStartOnly : DstEnv :=
  ⟨some 49, some 49, ⟨false, 5, ⟨0, 0, 10, 15, 3, 24⟩⟩, ⟨false, 4, ⟨0, 0, 0, 0, 0, 0⟩⟩, true⟩

/-- Enable-path environment: start-line fetch times out, end line valid
(`11 01 10 00 00 24`), hardware write succeeds. -/
def dstEnvStaleStart : DstEnv :=
  ⟨some 49, some 49, ⟨true, 0, ⟨0, 0, 0, 0, 0, 0⟩⟩, ⟨false, 5, ⟨0, 0, 10, 1, 11, 24⟩⟩, true⟩

/-- Enable-path environment with both lines valid and a succeeding
hardware write. -/
def dstEnvGood : DstEnv :=
  ⟨some 49, some 49, ⟨false, 5, ⟨0, 0, 10, 15, 3, 24⟩⟩, ⟨false, 5, ⟨0, 0, 10, 1, 11, 24⟩⟩, true⟩

/-- Enable-path environment whose start line has only four spaces. -/
def dstEnvBadStart : DstEnv :=
  ⟨some 49, some 49, ⟨false, 4, ⟨0, 0, 0, 0, 0, 0⟩⟩, ⟨false, 5, ⟨0, 0, 10, 1, 11, 24⟩⟩, true⟩

/-- Claim C3, counterexample to the claim as stated: entering the flow from
Disabled with a valid start line and an end line with the wrong delimiter
count reports InvalidInput but exits with the persisted flag at ValidStart
(1) — neither Disabled nor Enabled, and different from the pre-entry state. -/
theorem set_dst_c3_counterexample :
    (set_dst_feature dstEnvStartOnly 0).flag = 1 ∧
    (set_dst_feature dstEnvStartOnly 0).invalidReported = true ∧
    ¬((set_dst_feature dstEnvStartOnly 0).flag = 0 ∨
      (set_dst_feature dstEnvStartOnly 0).flag = 3) := by
  decide

/-- Claim C2, counterexample to the claim as stated: after the
`dstEnvStartOnly` invocation leaves the flag at ValidStart, a second
invocation whose start fetch times out but whose end line is valid issues
the hardware write with a start point never built in that invocation (the
uninitialized local, modelled `none`) — and still reaches Enabled. -/
theorem set_dst_c2_counterexample :
    ((set_dst_feature dstEnvStaleStart (set_dst_feature dstEnvStartOnly 0).flag).hwCalls.map
        Prod.fst) = [none] ∧
    (set_dst_feature dstEnvStaleStart (set_dst_feature dstEnvStartOnly 0).flag).flag = 3 := by
  decide

/-- Claim C2, witness: the amended theorem applied to a two-valid-line
Enable run from Disabled. -/
theorem set_dst_c2_witness :
    ((49 : Nat) = 49 ∨ (49 : Nat) = 50) ∧
    dstEnvGood.startLine.timedOut = false ∧
    dstEnvGood.startLine.spaceCount = MIN_SPACE_KEY_COUNT ∧
    validate_fields dstEnvGood.startLine.fields = true ∧
    dstEnvGood.endLine.timedOut = false ∧
    dstEnvGood.endLine.spaceCount = MIN_SPACE_KEY_COUNT ∧
    validate_fields dstEnvGood.endLine.fields = true ∧
    (set_dst_feature dstEnvGood 0).hwCalls =
      [(some (buildDstPoint 49 dstEnvGood.startLine.fields),
        some (buildDstPoint 49 dstEnvGood.endLine.fields))] ∧
    (set_dst_feature dstEnvGood 0).flagsTrace.take 2 = [1, 2] :=
  set_dst_c2 dstEnvGood 0 49 (Or.inl rfl) rfl rfl (by decide)

/-- Claim C3, witness: the amended theorem applied to a run whose start
line has the wrong delimiter count — flag unchanged, no hardware call. -/
theorem set_dst_c3_witness :
    (set_dst_feature dstEnvBadStart 0).flag = 0 ∧
    (set_dst_feature dstEnvBadStart 0).hwCalls = [] :=
  (set_dst_c3 dstEnvBadStart 0 (Or.inl rfl)).2.2.2.1 49 rfl rfl (by decide)

/-- Claim C1, witness: the amended theorem applied to a four-space line —
InvalidInput reported, no hardware attempt. -/
theorem set_new_time_c1_witness :
    (set_new_time ⟨false, 4, ⟨0, 0, 0, 1, 1, 24⟩⟩ (fun _ => true)).hwAttempts = 0 ∧
    (set_new_time ⟨false, 4, ⟨0, 0, 0, 1, 1, 24⟩⟩ (fun _ => true)).invalidReported = true :=
  (set_new_time_c1 ⟨false, 4, ⟨0, 0, 0, 1, 1, 24⟩⟩ (fun _ => true)).2.1 rfl (by decide)

/-- Claim C8: the DST-enable write happens at most once per invocation and
a reported failure is fatal with no retry; `rtc_init` and the
`set_new_time` set call run the 500-attempt, 5 ms-delay retry loop —
exactly `MAX_ATTEMPTS` calls (then failure escalation, fatal in
`set_new_time`) when every attempt fails, early stop after `k + 1` calls at
the first success, each attempt followed by the `INIT_DELAY_MS` delay. -/
theorem retries_c8 :
    (∀ (env : DstEnv) (flag0 : Nat), (set_dst_feature env flag0).hwCalls.length ≤ 1) ∧
    (∀ (env : DstEnv) (flag0 : Nat), env.hwOk = false →
      (set_dst_feature env flag0).hwCalls ≠ [] →
      (set_dst_feature env flag0).fatal = true ∧
      (set_dst_feature env flag0).hwCalls.length = 1) ∧
    (∀ hw : Nat → Bool, (∀ j, j < MAX_ATTEMPTS → hw j = false) →
      rtc_init hw = ⟨MAX_ATTEMPTS, false, INIT_DELAY_MS * MAX_ATTEMPTS⟩) ∧
    (∀ (hw : Nat → Bool) (k : Nat), k < MAX_ATTEMPTS → (∀ j, j < k → hw j = false) →
      hw k = true → rtc_init hw = ⟨k + 1, true, INIT_DELAY_MS * (k + 1)⟩) ∧
    (∀ (line : LineInput) (hw : Nat → Bool), line.timedOut = false →
      line.spaceCount = MIN_SPACE_KEY_COUNT →
      ((set_new_time line hw).hwAttempts ≤ MAX_ATTEMPTS ∧
       ((∀ j, j < MAX_ATTEMPTS → hw j = false) →
         (set_new_time line hw).hwAttempts = MAX_ATTEMPTS ∧
         (set_new_time line hw).fatal = true) ∧
       (∀ k, k < MAX_ATTEMPTS → (∀ j, j < k → hw j = false) → hw k = true →
         (set_new_time line hw).hwAttempts = k + 1 ∧
         (set_new_time line hw).fatal = false))) := by
  refine ⟨set_dst_single, set_dst_fail_fatal, ?_, ?_, ?_⟩
  · intro hw hfail
    have hrw := retry_loop_all_fail hw MAX_ATTEMPTS 0 0 (by simp [MAX_ATTEMPTS])
      (fun j hj => by simpa using hfail j hj)
    simp only [rtc_init, hrw, Nat.zero_add]
  · intro hw k hk hfail hsucc
    have hrw := retry_loop_first_success hw k MAX_ATTEMPTS 0 0 hk
      (fun j hj => by simpa using hfail j hj) (by simpa using hsucc)
    simp only [rtc_init, hrw, Nat.zero_add]
  · intro line hw ht hs
    refine ⟨?_, ?_, ?_⟩
    · have hle := retry_loop_le hw MAX_ATTEMPTS 0 0 (by simp [MAX_ATTEMPTS])
      by_cases hr : (retry_loop hw 0 0 MAX_ATTEMPTS).ok <;>
        simp [set_new_time, ht, hs, hr] <;> omega
    · intro hfail
      have hrw := retry_loop_all_fail hw MAX_ATTEMPTS 0 0 (by simp [MAX_ATTEMPTS])
        (fun j hj => by simpa using hfail j hj)
      simp [set_new_time, ht, hs, hrw]
    · intro k hk hfail hsucc
      have hrw := retry_loop_first_success hw k MAX_ATTEMPTS 0 0 hk
        (fun j hj => by simpa using hfail j hj) (by simpa using hsucc)
      simp [set_new_time, ht, hs, hrw]

/-- Claim C8, witness: the retry characterizations at concrete hardware
behaviors. -/
theorem retries_c8_witness :
    (set_dst_feature dstEnvGood 0).hwCalls.length ≤ 1 ∧
    rtc_init (fun _ => false) = ⟨MAX_ATTEMPTS, false, INIT_DELAY_MS * MAX_ATTEMPTS⟩ ∧
    rtc_init (fun j => j == 2) = ⟨2 + 1, true, INIT_DELAY_MS * (2 + 1)⟩ ∧
    (set_new_time ⟨false, 5, ⟨0, 0, 0, 1, 1, 24⟩⟩ (fun _ => false)).fatal = true :=
  ⟨retries_c8.1 dstEnvGood 0,
   retries_c8.2.2.1 (fun _ => false) (fun j hj => rfl),
   retries_c8.2.2.2.1 (fun j => j == 2) 2 (by decide)
     (fun j hj => by simpa using Nat.ne_of_lt hj) (by decide),
   ((retries_c8.2.2.2.2 ⟨false, 5, ⟨0, 0, 0, 1, 1, 24⟩⟩ (fun _ => false) rfl rfl).2.1
     (fun j hj => rfl)).2⟩
